import Mathlib

/-!
Verification of the handle-registry layer of the personal workspace provider
(`packages/hoppscotch-common/src/services/new-workspace/providers/personal.workspace.ts`),
together with the handle types (`new-workspace/handle.ts`) and the handle
validity helpers (`new-workspace/helpers.ts`).

The collection tree is a nested array structure; collection and request
identities are slash-joined sequences of zero-based positional indices.
The provider keeps a registry (`issuedHandles`) of writable handle cells
and rewrites or invalidates them on structural mutations.

The underlying collection store (`newstore/collections`) is repository code
that is not part of the provided sources; its operations are modelled from
the spec where they are needed (each such definition carries a
`Modelled from the spec:` doc comment).
-/

namespace Hopp

/-- A saved REST request. The source type `HoppRESTRequest` has many fields;
the embedding keeps the `name` field (the only field the provider's handle
bookkeeping writes) plus two representative payload fields (`endpoint`,
`method`) that stand for "the remaining request fields". -/
structure HoppRESTRequest where
  name : String
  endpoint : String
  method : String
deriving DecidableEq, Repr

/-- A `Partial<HoppRESTRequest>` patch as accepted by `updateRESTRequest`
(the `id` field is deleted by the source before use and is not modelled). -/
structure HoppRESTRequestPatch where
  name : Option String
  endpoint : Option String
  method : Option String
deriving DecidableEq, Repr

/-- lodash `merge(request, updatedRequest)`: every field present in the patch
overrides the corresponding field of the base request. (In JS, `merge`
mutates and returns its first argument; the aliasing consequences of that are
modelled explicitly at the call site in `updateRESTRequest`.) -/
def mergeReq (r : HoppRESTRequest) (u : HoppRESTRequestPatch) : HoppRESTRequest :=
  { name := u.name.getD r.name
    endpoint := u.endpoint.getD r.endpoint
    method := u.method.getD r.method }

/-- A collection/folder in the REST collection tree (`HoppCollection`):
a name, child folders and child requests. Fields of `HoppCollection` not
touched by the embedded operations (auth, headers, ids) are omitted. -/
inductive HoppCollection : Type where
  | mk (name : String) (folders : List HoppCollection)
       (requests : List HoppRESTRequest)

def HoppCollection.name : HoppCollection → String
  | .mk n _ _ => n

def HoppCollection.folders : HoppCollection → List HoppCollection
  | .mk _ f _ => f

def HoppCollection.requests : HoppCollection → List HoppRESTRequest
  | .mk _ _ r => r

def HoppCollection.withName (c : HoppCollection) (n : String) : HoppCollection :=
  .mk n c.folders c.requests

def HoppCollection.withFolders (c : HoppCollection) (f : List HoppCollection) : HoppCollection :=
  .mk c.name f c.requests

def HoppCollection.withRequests (c : HoppCollection) (r : List HoppRESTRequest) : HoppCollection :=
  .mk c.name c.folders r

/-- Replace the element at index `i` by `f` of it; out-of-range leaves the
list unchanged (array write semantics used by the store model). -/
def modifyIdx (f : α → α) : Nat → List α → List α
  | _, [] => []
  | 0, a :: as => f a :: as
  | n + 1, a :: as => a :: modifyIdx f n as

/-- Insert `a` at position `n` (append when `n` is past the end). -/
def insertAt (a : α) : Nat → List α → List α
  | 0, l => a :: l
  | _ + 1, [] => [a]
  | n + 1, b :: l => b :: insertAt a n l

/-- Split a character list at every occurrence of `sep` (the splitting step
of JS `String.prototype.split`). -/
def splitChars (sep : Char) : List Char → List (List Char)
  | [] => [[]]
  | c :: cs =>
    let rest := splitChars sep cs
    if c == sep then [] :: rest
    else
      match rest with
      | [] => [[c]]
      | r :: rs => (c :: r) :: rs

/-- JS `path.split("/")`: `""` splits to `[""]`, `"1/2"` to `["1", "2"]`.
(Implemented on the character list so that concrete evaluations reduce in
the kernel; it agrees with `String.splitOn "/"`.) -/
def splitOnSlash (s : String) : List String :=
  (splitChars '/' s.data).map List.asString

/-- Is `pre` a character-wise prefix of `l`? -/
def charsStartWith : List Char → List Char → Bool
  | _, [] => true
  | [], _ :: _ => false
  | a :: as, b :: bs => a == b && charsStartWith as bs

/-- JS `String.prototype.startsWith` (also the behaviour of Lean's
`String.startsWith`), computed on the character lists. -/
def startsWithJS (s pre : String) : Bool :=
  charsStartWith s.data pre.data

/-- JS `parseInt` on a decimal string: the value of the leading run of
digits, `none` (standing for `NaN`) when the string does not start with a
digit — in particular `parseInt("")` is `NaN`. -/
def parseIntJS (s : String) : Option Nat :=
  let ds := s.data.takeWhile Char.isDigit
  if ds.isEmpty then none
  else some (ds.foldl (fun n c => n * 10 + (c.toNat - '0'.toNat)) 0)

/-- `path.split("/").map((x) => parseInt(x))` on an index-path string. -/
def parsePath (s : String) : List (Option Nat) :=
  (splitOnSlash s).map parseIntJS

/-- `path.split("/").slice(-1)[0]` — the last component of a path string. -/
def lastComponent (s : String) : String :=
  List.getLastD (splitOnSlash s) ""

/-- `path.split("/").slice(0, -1).join("/")` — the parent path. -/
def parentPath (s : String) : String :=
  String.intercalate "/" ((splitOnSlash s).dropLast)

/-- `pathToLastIndex` from the provider: `parseInt` of the last component
(the index of the entity inside its parent). -/
def pathToLastIndex (path : String) : Nat :=
  (parseIntJS (lastComponent path)).getD 0

namespace Store

/-- Modelled from the spec: `navigateToFolderWithIndexPath` of the collections
store (not under the provided sources) descends the nested `folders` arrays
of one collection following the remaining index path; any missing or `NaN`
index yields `none`. -/
def navigateFrom : List (Option Nat) → HoppCollection → Option HoppCollection
  | [], c => some c
  | none :: _, _ => none
  | some i :: rest, c =>
    match c.folders.get? i with
    | none => none
    | some c' => navigateFrom rest c'

/-- Modelled from the spec: `navigateToFolderWithIndexPath` — the first path
component indexes the root collection array, later components index into
`folders`; an empty path or a failed index yields `none`. -/
def navigateToFolderWithIndexPath (cols : List HoppCollection) :
    List (Option Nat) → Option HoppCollection
  | [] => none
  | none :: _ => none
  | some i :: rest =>
    match cols.get? i with
    | none => none
    | some c => navigateFrom rest c

/-- Apply `f` to the collection reached from `c` by the remaining index path
(no change when the path misses). -/
def modifyCollFrom (f : HoppCollection → HoppCollection) :
    List (Option Nat) → HoppCollection → HoppCollection
  | [], c => f c
  | none :: _, c => c
  | some i :: rest, c =>
    HoppCollection.mk c.name
      (modifyIdx (fun c' => modifyCollFrom f rest c') i c.folders) c.requests

/-- Apply `f` to the collection addressed by the index path in the root
array (no change when the path misses or is empty). -/
def modifyCollsAtPath (f : HoppCollection → HoppCollection)
    (cols : List HoppCollection) : List (Option Nat) → List HoppCollection
  | [] => cols
  | none :: _ => cols
  | some i :: rest => modifyIdx (fun c => modifyCollFrom f rest c) i cols

/-- Modelled from the spec: `getRequestsByPath` helper — the requests array
of the collection at the given path, `[]` when the path misses. -/
def getRequestsByPath (cols : List HoppCollection) (path : String) :
    List HoppRESTRequest :=
  match navigateToFolderWithIndexPath cols (parsePath path) with
  | some c => c.requests
  | none => []

/-- Modelled from the spec: `getFoldersByPath` helper — the folders array of
the collection at the given path, `[]` when the path misses. -/
def getFoldersByPath (cols : List HoppCollection) (path : String) :
    List HoppCollection :=
  match navigateToFolderWithIndexPath cols (parsePath path) with
  | some c => c.folders
  | none => []

/-- Modelled from the spec: `addRESTCollection` appends a new root
collection at the end of the root array. -/
def addRESTCollection (cols : List HoppCollection) (c : HoppCollection) :
    List HoppCollection :=
  cols ++ [c]

/-- Modelled from the spec: `addRESTFolder` appends a fresh named folder to
the `folders` of the collection at `path`. -/
def addRESTFolder (cols : List HoppCollection) (name : String) (path : String) :
    List HoppCollection :=
  modifyCollsAtPath (fun c => c.withFolders (c.folders ++ [.mk name [] []]))
    cols (parsePath path)

/-- Modelled from the spec: `saveRESTRequestAs` appends the request to the
requests of the collection at `path` and returns the insertion index (the
request count before the append; the tree is unchanged and the index is the
degenerate 0 when the path misses). -/
def saveRESTRequestAs (cols : List HoppCollection) (path : String)
    (req : HoppRESTRequest) : List HoppCollection × Nat :=
  match navigateToFolderWithIndexPath cols (parsePath path) with
  | none => (cols, 0)
  | some c =>
    (modifyCollsAtPath (fun c' => c'.withRequests (c'.requests ++ [req]))
      cols (parsePath path), c.requests.length)

/-- Modelled from the spec: `removeRESTCollection` deletes the root
collection at the given index. -/
def removeRESTCollection (cols : List HoppCollection) (i : Nat) :
    List HoppCollection :=
  cols.eraseIdx i

/-- Modelled from the spec: `removeRESTFolder` deletes the folder at the
given (non-root) index path from its parent's `folders`. -/
def removeRESTFolder (cols : List HoppCollection) (path : String) :
    List HoppCollection :=
  let p := parsePath path
  match p.getLast? with
  | some (some i) =>
    match p.dropLast with
    | [] => cols.eraseIdx i
    | parent =>
      modifyCollsAtPath (fun c => c.withFolders (c.folders.eraseIdx i))
        cols parent
  | _ => cols

/-- Modelled from the spec: `removeRESTRequest` deletes request `i` of the
collection at `path`. -/
def removeRESTRequest (cols : List HoppCollection) (path : String) (i : Nat) :
    List HoppCollection :=
  modifyCollsAtPath (fun c => c.withRequests (c.requests.eraseIdx i))
    cols (parsePath path)

/-- Modelled from the spec: `editRESTRequest` overwrites request `i` of the
collection at `path`. -/
def editRESTRequest (cols : List HoppCollection) (path : String) (i : Nat)
    (req : HoppRESTRequest) : List HoppCollection :=
  modifyCollsAtPath (fun c => c.withRequests (c.requests.set i req))
    cols (parsePath path)

/-- Modelled from the spec: `editRESTCollection` overwrites the root
collection at the given index with the merged collection. -/
def editRESTCollection (cols : List HoppCollection) (i : Nat)
    (c : HoppCollection) : List HoppCollection :=
  modifyIdx (fun _ => c) i cols

/-- Modelled from the spec: `editRESTFolder` overwrites the folder at the
given index path with the merged collection. -/
def editRESTFolder (cols : List HoppCollection) (path : String)
    (c : HoppCollection) : List HoppCollection :=
  modifyCollsAtPath (fun _ => c) cols (parsePath path)

/-- Modelled from the spec: `moveRESTRequest` removes request `i` of the
source collection and appends it at the end of the destination collection's
requests (no change when source or request is missing). -/
def moveRESTRequest (cols : List HoppCollection) (source : String) (i : Nat)
    (dest : String) : List HoppCollection :=
  match navigateToFolderWithIndexPath cols (parsePath source) with
  | none => cols
  | some c =>
    match c.requests.get? i with
    | none => cols
    | some req =>
      let removed := modifyCollsAtPath
        (fun c' => c'.withRequests (c'.requests.eraseIdx i))
        cols (parsePath source)
      modifyCollsAtPath (fun c' => c'.withRequests (c'.requests ++ [req]))
        removed (parsePath dest)

/-- Modelled from the spec: `moveRESTFolder` removes the collection at the
dragged path and re-attaches it under the destination collection (at the
root level when the destination is `none`). -/
def moveRESTFolder (cols : List HoppCollection) (path : String)
    (dest : Option String) : List HoppCollection :=
  match navigateToFolderWithIndexPath cols (parsePath path) with
  | none => cols
  | some c =>
    let p := parsePath path
    let removed :=
      match p.getLast? with
      | some (some i) =>
        match p.dropLast with
        | [] => cols.eraseIdx i
        | parent =>
          modifyCollsAtPath (fun c' => c'.withFolders (c'.folders.eraseIdx i))
            cols parent
      | _ => cols
    match dest with
    | none => removed ++ [c]
    | some dp =>
      modifyCollsAtPath (fun c' => c'.withFolders (c'.folders ++ [c]))
        removed (parsePath dp)

/-- Move the element at `di` to the destination position (`none` = end). -/
def reorderIdx (l : List α) (di : Nat) (dest : Option Nat) : List α :=
  match l.get? di with
  | none => l
  | some x =>
    let l' := l.eraseIdx di
    match dest with
    | none => l' ++ [x]
    | some d => insertAt x (if di < d then d - 1 else d) l'

/-- Modelled from the spec: `updateRESTCollectionOrder` moves the dragged
collection (identified by its index path) to the destination position among
its siblings; a `none` destination drops it at the end. -/
def updateRESTCollectionOrder (cols : List HoppCollection)
    (dragged : String) (dest : Option String) : List HoppCollection :=
  let di := pathToLastIndex dragged
  let dest? := dest.map pathToLastIndex
  match (parsePath dragged).dropLast with
  | [] => reorderIdx cols di dest?
  | parent =>
    modifyCollsAtPath (fun c => c.withFolders (reorderIdx c.folders di dest?))
      cols parent

/-- Modelled from the spec: `updateRESTRequestOrder` moves the dragged
request index to the destination request position inside the collection at
`path`; a `none` destination drops it at the end. -/
def updateRESTRequestOrder (cols : List HoppCollection) (di : Nat)
    (dest : Option Nat) (path : String) : List HoppCollection :=
  modifyCollsAtPath (fun c => c.withRequests (reorderIdx c.requests di dest))
    cols (parsePath path)

end Store

/-! ## Handle states (`handle.ts`, `workspace.ts` data shapes)

A `Handle<T>` is a reactive cell whose current value is either
`{ type: "ok", data }` or `{ type: "invalid", reason }`. The embedding works
with the current *value* of each handle; the reactive recomputation of a
derived handle is embedded as an explicit read function of the current
values it depends on. -/

/-- Current value of a `Handle<Workspace>`: ok data is
`{ providerID, workspaceID, name }`. -/
inductive WorkspaceHandleSt : Type where
  | ok (providerID workspaceID name : String)
  | invalid (reason : String)
deriving DecidableEq, Repr

/-- Current value of a `Handle<WorkspaceCollection>`: ok data is
`{ providerID, workspaceID, collectionID, name }`. -/
inductive CollectionHandleSt : Type where
  | ok (providerID workspaceID collectionID name : String)
  | invalid (reason : String)
deriving DecidableEq, Repr

/-- The `WorkspaceRequest` data carried by a request handle. -/
structure WorkspaceRequestData where
  providerID : String
  workspaceID : String
  collectionID : String
  requestID : String
  request : HoppRESTRequest
deriving DecidableEq, Repr

/-- Current value of a `Handle<WorkspaceRequest>`. -/
inductive RequestHandleSt : Type where
  | ok (data : WorkspaceRequestData)
  | invalid (reason : String)
deriving DecidableEq, Repr

/-- Current value of a cell of the `issuedHandles` registry, which holds
`WritableHandleRef<WorkspaceCollection | WorkspaceRequest>` cells: the ok
data is either collection data (no `requestID` field) or request data
(the `"requestID" in handle.value.data` discrimination of the source). -/
inductive IssuedHandleSt : Type where
  | okColl (providerID workspaceID collectionID name : String)
  | okReq (data : WorkspaceRequestData)
  | invalid (reason : String)
deriving DecidableEq, Repr

/-- `isValidWorkspaceHandle` from `helpers.ts`: the current value is ok and
its `providerID`/`workspaceID` equal the expected owner. -/
def isValidWorkspaceHandle (h : WorkspaceHandleSt)
    (providerID workspaceID : String) : Bool :=
  match h with
  | .ok pid wid _ => pid == providerID && wid == workspaceID
  | .invalid _ => false

/-- `isValidCollectionHandle` from `helpers.ts`. -/
def isValidCollectionHandle (h : CollectionHandleSt)
    (providerID workspaceID : String) : Bool :=
  match h with
  | .ok pid wid _ _ => pid == providerID && wid == workspaceID
  | .invalid _ => false

/-- `isValidRequestHandle` from `helpers.ts`. -/
def isValidRequestHandle (h : RequestHandleSt)
    (providerID workspaceID : String) : Bool :=
  match h with
  | .ok d => d.providerID == providerID && d.workspaceID == workspaceID
  | .invalid _ => false

/-- `PersonalWorkspaceProviderService.providerID`. -/
def personalProviderID : String := "PERSONAL_WORKSPACE_PROVIDER"

/-- The mutable state of `PersonalWorkspaceProviderService`: the collection
tree (`restCollectionState.value.state`, mirroring the collections store)
and the `issuedHandles` registry. -/
structure ProviderState where
  restCollectionState : List HoppCollection
  issuedHandles : List IssuedHandleSt

/-! ## Provider operations (`personal.workspace.ts`)

Each public operation is embedded as a function of the current value of the
supplied handle and the provider state, returning the tagged
`E.Either`-style result (`Except String`) together with the state after the
call. Each operation's validity guard is written as the source writes it:
`isValid*Handle(h, this.providerID, "personal")`, unfolded into the match on
the handle value. Calls that touch neither the tree nor the registry
(analytics events, save-context resolution, file downloads) are omitted. -/

namespace Provider

open Store

/-- Does a registry cell hold a valid request handle whose
(providerID, workspaceID, collectionID, requestID) key equals the given one?
(the `isEqual(dataProps, {...})` dedup test of `createRESTRequest` /
`getRequestHandle`). -/
def reqKeyMatches (providerID workspaceID collectionID requestID : String) :
    IssuedHandleSt → Bool
  | .okReq d =>
    d.providerID == providerID && d.workspaceID == workspaceID &&
      d.collectionID == collectionID && d.requestID == requestID
  | _ => false

/-- `findIndex` over the registry for a valid request cell with the given
requestID (used by `moveRESTRequest`). -/
def issuedReqHandleIdx (hs : List IssuedHandleSt) (rid : String) : Option Nat :=
  hs.findIdx? (fun h =>
    match h with
    | .okReq d => d.requestID == rid
    | _ => false)

/-- `createRESTRootCollection`: guard the workspace handle, compute the new
collection ID as the root array length before insertion, append the new root
collection. The returned handle's captured data
(newCollectionID, newCollectionName) is returned alongside. -/
def createRESTRootCollection (wh : WorkspaceHandleSt)
    (newCollectionName : String) (s : ProviderState) :
    Except String (String × String) × ProviderState :=
  match wh with
  | .invalid _ => (.error "INVALID_WORKSPACE_HANDLE", s)
  | .ok pid wid _ =>
    if pid == personalProviderID && wid == "personal" then
      let newCollectionID := toString s.restCollectionState.length
      let newRootCollection : HoppCollection := .mk newCollectionName [] []
      ( .ok (newCollectionID, newCollectionName),
        { s with restCollectionState :=
            addRESTCollection s.restCollectionState newRootCollection } )
    else (.error "INVALID_WORKSPACE_HANDLE", s)

/-- `createRESTChildCollection`: guard the parent collection handle, append a
folder under it; the returned handle captures the parent's
(providerID, workspaceID, collectionID) and the new name. -/
def createRESTChildCollection (ch : CollectionHandleSt)
    (newCollectionName : String) (s : ProviderState) :
    Except String (String × String × String × String) × ProviderState :=
  match ch with
  | .invalid _ => (.error "INVALID_COLLECTION_HANDLE", s)
  | .ok pid wid collectionID _ =>
    if pid == personalProviderID && wid == "personal" then
      ( .ok (pid, wid, collectionID, newCollectionName),
        { s with restCollectionState :=
            addRESTFolder s.restCollectionState newCollectionName collectionID } )
    else (.error "INVALID_COLLECTION_HANDLE", s)

/-- `updateRESTCollection` with a `Partial<HoppCollection>` carrying an
optional new name: guard, look the collection up, merge
(`{ ...collection, ...updatedCollection }`), and write it back through
`editRESTCollection` (root) or `editRESTFolder` (nested). -/
def updateRESTCollection (ch : CollectionHandleSt) (updatedName : Option String)
    (s : ProviderState) : Except String Unit × ProviderState :=
  match ch with
  | .invalid _ => (.error "INVALID_COLLECTION_HANDLE", s)
  | .ok pid wid collectionID _ =>
    if pid == personalProviderID && wid == "personal" then
      let tree' :=
        match navigateToFolderWithIndexPath s.restCollectionState
            (parsePath collectionID) with
        | none => s.restCollectionState
        | some c =>
          let newCollection := c.withName (updatedName.getD c.name)
          if (splitOnSlash collectionID).length == 1 then
            editRESTCollection s.restCollectionState
              ((parseIntJS collectionID).getD 0) newCollection
          else
            editRESTFolder s.restCollectionState collectionID newCollection
      (.ok (), { s with restCollectionState := tree' })
    else (.error "INVALID_COLLECTION_HANDLE", s)

/-- `removeRESTCollection`: guard, delete the collection from the store
(root index or nested folder path), then walk the registry and invalidate
every valid request cell whose `requestID` *string* starts with the deleted
`collectionID` (the source uses `String.prototype.startsWith`, not an index
path comparison), rewriting it to `invalid`/`"REQUEST_INVALIDATED"`. -/
def removeRESTCollection (ch : CollectionHandleSt) (s : ProviderState) :
    Except String Unit × ProviderState :=
  match ch with
  | .invalid _ => (.error "INVALID_COLLECTION_HANDLE", s)
  | .ok pid wid collectionID _ =>
    if pid == personalProviderID && wid == "personal" then
      let isRootCollection := (splitOnSlash collectionID).length == 1
      let tree' :=
        if isRootCollection then
          Store.removeRESTCollection s.restCollectionState
            ((parseIntJS collectionID).getD 0)
        else
          Store.removeRESTFolder s.restCollectionState collectionID
      let handles' := s.issuedHandles.map (fun h =>
        match h with
        | .okReq d =>
          if startsWithJS d.requestID collectionID then
            IssuedHandleSt.invalid "REQUEST_INVALIDATED"
          else h
        | _ => h)
      (.ok (), ⟨tree', handles'⟩)
    else (.error "INVALID_COLLECTION_HANDLE", s)

/-- `createRESTRequest`: guard the parent collection handle, save the request
through the store (receiving the insertion index), form
`requestID = collectionID + "/" + insertionIndex`, and push a fresh writable
cell onto the registry unless a valid cell with the same composite key is
already issued. The new cell's data is returned alongside. -/
def createRESTRequest (ch : CollectionHandleSt) (newRequest : HoppRESTRequest)
    (s : ProviderState) : Except String WorkspaceRequestData × ProviderState :=
  match ch with
  | .invalid _ => (.error "INVALID_COLLECTION_HANDLE", s)
  | .ok pid wid collectionID _ =>
    if pid == personalProviderID && wid == "personal" then
      let saved := saveRESTRequestAs s.restCollectionState collectionID newRequest
      let requestID := collectionID ++ "/" ++ toString saved.2
      let cellData : WorkspaceRequestData :=
        ⟨pid, wid, collectionID, requestID, newRequest⟩
      let handleIsAlreadyIssued :=
        s.issuedHandles.any (reqKeyMatches pid wid collectionID requestID)
      let handles' :=
        if handleIsAlreadyIssued then s.issuedHandles
        else s.issuedHandles ++ [IssuedHandleSt.okReq cellData]
      (.ok cellData, ⟨saved.1, handles'⟩)
    else (.error "INVALID_COLLECTION_HANDLE", s)

/-- `removeRESTRequest`: guard, delete the request from the store, then walk
the registry and rewrite every valid request cell whose `requestID` equals
the removed request's ID to `invalid`/`"REQUEST_INVALIDATED"`. -/
def removeRESTRequest (rh : RequestHandleSt) (s : ProviderState) :
    Except String Unit × ProviderState :=
  match rh with
  | .invalid _ => (.error "INVALID_REQUEST_HANDLE", s)
  | .ok d =>
    if d.providerID == personalProviderID && d.workspaceID == "personal" then
      let requestIndex := pathToLastIndex d.requestID
      let tree' := Store.removeRESTRequest s.restCollectionState
        d.collectionID requestIndex
      let handles' := s.issuedHandles.map (fun h =>
        match h with
        | .okReq dd =>
          if dd.requestID == d.requestID then
            IssuedHandleSt.invalid "REQUEST_INVALIDATED"
          else h
        | _ => h)
      (.ok (), ⟨tree', handles'⟩)
    else (.error "INVALID_REQUEST_HANDLE", s)

/-- `updateRESTRequest`: guard, merge the patch into the handle's request
(`merge(request, updatedRequest)`), write the merged request into the store,
then walk the registry rewriting the `name` of every valid request cell with
a matching `requestID` to the merged name.

lodash `merge` mutates its first argument: `request` is the very object held
inside the issued cell the supplied handle reads from, so that cell's whole
request becomes the merged request before the name-rewriting loop runs.
`aliasIdx` names that cell (`some i` when the supplied handle was issued and
reads registry cell `i`; `none` when the supplied handle's cell is not in
the registry, as happens when `createRESTRequest`/`getRequestHandle`
deduplicated the push). -/
def updateRESTRequest (rh : RequestHandleSt) (aliasIdx : Option Nat)
    (updatedRequest : HoppRESTRequestPatch) (s : ProviderState) :
    Except String Unit × ProviderState :=
  match rh with
  | .invalid _ => (.error "INVALID_REQUEST_HANDLE", s)
  | .ok d =>
    if d.providerID == personalProviderID && d.workspaceID == "personal" then
      let newRequest := mergeReq d.request updatedRequest
      let requestIndex := pathToLastIndex d.requestID
      let tree' := editRESTRequest s.restCollectionState d.collectionID
        requestIndex newRequest
      let handles1 :=
        match aliasIdx with
        | none => s.issuedHandles
        | some i => modifyIdx (fun h =>
            match h with
            | .okReq dd => .okReq { dd with request := newRequest }
            | _ => h) i s.issuedHandles
      let handles2 := handles1.map (fun h =>
        match h with
        | .okReq dd =>
          if dd.requestID == d.requestID then
            IssuedHandleSt.okReq
              { dd with request := { dd.request with name := newRequest.name } }
          else h
        | _ => h)
      (.ok (), ⟨tree', handles2⟩)
    else (.error "INVALID_REQUEST_HANDLE", s)

/-- `reorderRESTCollection`: guard, hand the dragged collection's index path
and the destination to the store's order update; the registry is untouched. -/
def reorderRESTCollection (ch : CollectionHandleSt)
    (destinationCollectionID : Option String) (s : ProviderState) :
    Except String Unit × ProviderState :=
  match ch with
  | .invalid _ => (.error "INVALID_COLLECTION_HANDLE", s)
  | .ok pid wid collectionID _ =>
    if pid == personalProviderID && wid == "personal" then
      let tree' := updateRESTCollectionOrder s.restCollectionState
        collectionID destinationCollectionID
      (.ok (), { s with restCollectionState := tree' })
    else (.error "INVALID_COLLECTION_HANDLE", s)

/-- `moveRESTCollection`: guard, hand the dragged collection's index path and
the destination to the store's folder move; the registry is untouched. -/
def moveRESTCollection (ch : CollectionHandleSt)
    (destinationCollectionID : Option String) (s : ProviderState) :
    Except String Unit × ProviderState :=
  match ch with
  | .invalid _ => (.error "INVALID_COLLECTION_HANDLE", s)
  | .ok pid wid collectionID _ =>
    if pid == personalProviderID && wid == "personal" then
      let tree' := Store.moveRESTFolder s.restCollectionState
        collectionID destinationCollectionID
      (.ok (), { s with restCollectionState := tree' })
    else (.error "INVALID_COLLECTION_HANDLE", s)

/-- `reorderRESTRequest`: guard, hand the dragged request's last index, the
destination request's last index and the destination collection to the
store's request order update; the registry is untouched. -/
def reorderRESTRequest (rh : RequestHandleSt)
    (destinationCollectionID : String) (destinationRequestID : Option String)
    (s : ProviderState) : Except String Unit × ProviderState :=
  match rh with
  | .invalid _ => (.error "INVALID_REQUEST_HANDLE", s)
  | .ok d =>
    if d.providerID == personalProviderID && d.workspaceID == "personal" then
      let tree' := updateRESTRequestOrder s.restCollectionState
        (pathToLastIndex d.requestID)
        (destinationRequestID.map pathToLastIndex) destinationCollectionID
      (.ok (), { s with restCollectionState := tree' })
    else (.error "INVALID_REQUEST_HANDLE", s)

/-- `moveRESTRequest`: guard, find the registry cell of the dragged request
(failing with `INVALID_REQUEST_HANDLE` when no valid cell matches), compute
the affected requestID list
`sourceCollectionID + "/" + (affectedReqIndexRange + idx)` for
`idx < affectedReqIndexRange` where
`affectedReqIndexRange = (source request count before move) - 1 - draggedIndex`
(as written in the source), move the request in the store, rewrite the moved
cell to the destination collection with
`requestID = destination + "/" + (destination count after move - 1)`, and
decrement the last index of each registry cell whose requestID appears in the
affected list. -/
def moveRESTRequest (rh : RequestHandleSt) (destinationCollectionID : String)
    (s : ProviderState) : Except String Unit × ProviderState :=
  match rh with
  | .invalid _ => (.error "INVALID_REQUEST_HANDLE", s)
  | .ok d =>
    if d.providerID == personalProviderID && d.workspaceID == "personal" then
      let draggedRequestID := d.requestID
      let sourceCollectionID := parentPath draggedRequestID
      let draggedRequestIndexPos := pathToLastIndex draggedRequestID
      match issuedReqHandleIdx s.issuedHandles draggedRequestID with
      | none => (.error "INVALID_REQUEST_HANDLE", s)
      | some movedRequestHandleIdx =>
        let draggedCollectionReqCountBeforeMove :=
          (getRequestsByPath s.restCollectionState sourceCollectionID).length
        let affectedReqIndexRange :=
          draggedCollectionReqCountBeforeMove - 1 - draggedRequestIndexPos
        let affectedRequestIDs := (List.range affectedReqIndexRange).map
          (fun idx =>
            sourceCollectionID ++ "/" ++ toString (affectedReqIndexRange + idx))
        let tree' := Store.moveRESTRequest s.restCollectionState
          sourceCollectionID draggedRequestIndexPos destinationCollectionID
        let destinationCollectionReqCount :=
          (getRequestsByPath tree' destinationCollectionID).length
        let handles1 := modifyIdx (fun h =>
          match h with
          | .okReq dd => .okReq
              { dd with
                collectionID := destinationCollectionID,
                requestID := destinationCollectionID ++ "/" ++
                  toString (destinationCollectionReqCount - 1) }
          | _ => h) movedRequestHandleIdx s.issuedHandles
        let handles2 := affectedRequestIDs.foldl (fun hs requestID =>
          match issuedReqHandleIdx hs requestID with
          | none => hs
          | some handleIdx => modifyIdx (fun h =>
              match h with
              | .okReq dd =>
                let reqIndexPos := pathToLastIndex dd.requestID
                .okReq { dd with requestID :=
                    sourceCollectionID ++ "/" ++ toString (reqIndexPos - 1) }
              | _ => h) handleIdx hs) handles1
        (.ok (), ⟨tree', handles2⟩)
    else (.error "INVALID_REQUEST_HANDLE", s)

/-- `getRequestHandle`: guard the workspace handle (failing, as the source
does, with `"INVALID_COLLECTION_HANDLE"`), reject the empty requestID, look
the request up by splitting the requestID into collection path and request
index, and push a fresh writable cell unless an equal-keyed valid cell is
already issued. -/
def getRequestHandle (wh : WorkspaceHandleSt) (requestID : String)
    (s : ProviderState) : Except String WorkspaceRequestData × ProviderState :=
  match wh with
  | .invalid _ => (.error "INVALID_COLLECTION_HANDLE", s)
  | .ok pid wid _ =>
    if pid == personalProviderID && wid == "personal" then
      if requestID == "" then (.error "INVALID_REQUEST_ID", s)
      else
        let collectionID := parentPath requestID
        let requestIndexPath := lastComponent requestID
        if requestIndexPath == "" then (.error "INVALID_REQUEST_ID", s)
        else
          let collection := navigateToFolderWithIndexPath
            s.restCollectionState (parsePath collectionID)
          let request :=
            match collection, parseIntJS requestIndexPath with
            | some c, some i => c.requests.get? i
            | _, _ => none
          match request with
          | none => (.error "REQUEST_NOT_FOUND", s)
          | some req =>
            let cellData : WorkspaceRequestData :=
              ⟨pid, wid, collectionID, requestID, req⟩
            let handleIsAlreadyIssued :=
              s.issuedHandles.any (reqKeyMatches pid wid collectionID requestID)
            let handles' :=
              if handleIsAlreadyIssued then s.issuedHandles
              else s.issuedHandles ++ [IssuedHandleSt.okReq cellData]
            (.ok cellData, { s with issuedHandles := handles' })
    else (.error "INVALID_COLLECTION_HANDLE", s)

/-- `getPersonalWorkspaceHandle`: a fresh cell that always reads
`{ type: "ok", data: { providerID, workspaceID: "personal",
name: "Personal Workspace" } }`; nothing in the service ever writes to it. -/
def getPersonalWorkspaceHandle : WorkspaceHandleSt :=
  .ok personalProviderID "personal" "Personal Workspace"

/-- `getWorkspaceHandle`: every ID other than `"personal"` is rejected with
`INVALID_WORKSPACE_ID`; `"personal"` yields the personal workspace handle. -/
def getWorkspaceHandle (workspaceID : String) :
    Except String WorkspaceHandleSt :=
  if workspaceID != "personal" then .error "INVALID_WORKSPACE_ID"
  else .ok getPersonalWorkspaceHandle

/-! ## Derived handle reads

Every handle the provider returns is a `computed` that first re-checks the
validity of the handle it was derived from against
`(this.providerID, "personal")` and flips to `{ type: "invalid" }` with a
reason code when the check fails. Each read function below is the body of
the corresponding `computed`, as a function of the *current* value of the
captured parent handle (and, for request handles, of the writable cell). -/

/-- Read of the handle returned by `createRESTRootCollection`:
`newCollectionID`/`newCollectionName` were captured at creation; the ok
branch reads `workspaceHandle.value.data.workspaceID` afresh. -/
def createRootCollHandleRead (whNow : WorkspaceHandleSt)
    (newCollectionID newCollectionName : String) : CollectionHandleSt :=
  match whNow with
  | .ok pid wid _ =>
    if pid == personalProviderID && wid == "personal" then
      .ok personalProviderID wid newCollectionID newCollectionName
    else .invalid "WORKSPACE_INVALIDATED"
  | .invalid _ => .invalid "WORKSPACE_INVALIDATED"

/-- Read of the handle returned by `createRESTChildCollection`: the parent's
`(providerID, workspaceID, collectionID)` and the new name were captured at
creation. -/
def createChildCollHandleRead (chNow : CollectionHandleSt)
    (providerID workspaceID collectionID newCollectionName : String) :
    CollectionHandleSt :=
  if isValidCollectionHandle chNow personalProviderID "personal" then
    .ok providerID workspaceID collectionID newCollectionName
  else .invalid "COLLECTION_INVALIDATED"

/-- Read of the handle returned by `createRESTRequest`: when the parent
collection handle is valid the read passes the writable cell's current value
through; otherwise it is `invalid`/`"COLLECTION_INVALIDATED"`. -/
def createRequestHandleRead (chNow : CollectionHandleSt)
    (cellNow : IssuedHandleSt) : IssuedHandleSt :=
  if isValidCollectionHandle chNow personalProviderID "personal" then cellNow
  else .invalid "COLLECTION_INVALIDATED"

/-- Read of the handle returned by `getCollectionHandle`: the workspace
handle's `(providerID, workspaceID)`, the collection ID and the looked-up
collection's name were captured at creation. -/
def getCollectionHandleRead (whNow : WorkspaceHandleSt)
    (providerID workspaceID collectionID collectionName : String) :
    CollectionHandleSt :=
  if isValidWorkspaceHandle whNow personalProviderID "personal" then
    .ok providerID workspaceID collectionID collectionName
  else .invalid "WORKSPACE_INVALIDATED"

/-- Read of the handle returned by `getRequestHandle`: when the workspace
handle is valid the read passes the writable cell's current value through;
otherwise it is `invalid`/`"WORKSPACE_INVALIDATED"`. -/
def getRequestHandleRead (whNow : WorkspaceHandleSt)
    (cellNow : IssuedHandleSt) : IssuedHandleSt :=
  if isValidWorkspaceHandle whNow personalProviderID "personal" then cellNow
  else .invalid "WORKSPACE_INVALIDATED"

/-- Read of the handle returned by `importRESTCollections` (same shape as
`createRESTRootCollection`'s handle). -/
def importCollsHandleRead (whNow : WorkspaceHandleSt)
    (newCollectionID newCollectionName : String) : CollectionHandleSt :=
  match whNow with
  | .ok pid wid _ =>
    if pid == personalProviderID && wid == "personal" then
      .ok personalProviderID wid newCollectionID newCollectionName
    else .invalid "WORKSPACE_INVALIDATED"
  | .invalid _ => .invalid "WORKSPACE_INVALIDATED"

end Provider

/-! ## Reference notions and fixtures -/

/-- Is path `r` inside the subtree rooted at path `c`? Following the spec's
index-path reading ("slash-joined sequences of positional indices", a
deleted collection affects "C itself or a descendant index path of C"):
`c`'s index components must be an initial segment of `r`'s components.
This definition follows the spec's words, to be compared with the
`String.startsWith` test the source code uses. -/
def pathInSubtree (c r : String) : Bool :=
  (splitOnSlash r).take (splitOnSlash c).length == splitOnSlash c

/-- The composite key (providerID, workspaceID, collectionID, requestID) of a
registry cell currently holding a valid request handle. -/
def IssuedHandleSt.reqKey? :
    IssuedHandleSt → Option (String × String × String × String)
  | .okReq d => some (d.providerID, d.workspaceID, d.collectionID, d.requestID)
  | _ => none

/-- The composite keys of all valid request cells of a registry. -/
def validReqKeys (hs : List IssuedHandleSt) :
    List (String × String × String × String) :=
  hs.filterMap IssuedHandleSt.reqKey?

/-- A sample request used by the concrete scenarios. -/
def sampleReq (n : String) : HoppRESTRequest := ⟨n, "https://example.com", "GET"⟩

/-- An empty root collection named `C<i>`. -/
def rootColl (i : Nat) : HoppCollection := .mk ("C" ++ toString i) [] []

/-- Scenario for the collection-removal claim: twelve root collections, the
last one (index 11) holding one request, and a registry with the valid
handle issued for that request (requestID `"11/0"`). -/
def treeTwelve : List HoppCollection :=
  (List.range 11).map rootColl ++ [.mk "C11" [] [sampleReq "x"]]

def handleElevenData : WorkspaceRequestData :=
  ⟨personalProviderID, "personal", "11", "11/0", sampleReq "x"⟩

def stTwelve : ProviderState :=
  ⟨treeTwelve, [.okReq handleElevenData]⟩

/-- Scenario for the request-move claim: source collection 0 with three
requests, empty destination collection 1, and issued handles for all three
requests of the source. -/
def treeMove : List HoppCollection :=
  [.mk "A" [] [sampleReq "r0", sampleReq "r1", sampleReq "r2"], .mk "B" [] []]

def moveData (i : Nat) : WorkspaceRequestData :=
  ⟨personalProviderID, "personal", "0", "0/" ++ toString i, sampleReq ("r" ++ toString i)⟩

def stMove : ProviderState :=
  ⟨treeMove, [.okReq (moveData 0), .okReq (moveData 1), .okReq (moveData 2)]⟩

/-- Scenario for the reorder claim: two root collections with one request
each, and an issued handle for the first collection's request. -/
def treeReorder : List HoppCollection :=
  [.mk "A" [] [sampleReq "a0"], .mk "B" [] [sampleReq "b0"]]

def reorderData : WorkspaceRequestData :=
  ⟨personalProviderID, "personal", "0", "0/0", sampleReq "a0"⟩

def stReorder : ProviderState := ⟨treeReorder, [.okReq reorderData]⟩

/-- Scenario for the request-update claim: one collection with one request
(name "a", method "GET"), whose issued handle is also the handle supplied to
`updateRESTRequest` (aliasing cell 0). -/
def updReq : HoppRESTRequest := ⟨"a", "https://example.com", "GET"⟩

def updData : WorkspaceRequestData :=
  ⟨personalProviderID, "personal", "0", "0/0", updReq⟩

def stUpd : ProviderState := ⟨[.mk "A" [] [updReq]], [.okReq updData]⟩

/-! ## Theorems -/

/-- C1: removing the root collection `"1"` from the twelve-collection state
invalidates the issued handle for request `"11/0"`, although `"11/0"` is not
inside the subtree of collection `"1"` (its components `[11, 0]` do not
extend `[1]`): the source tests `requestID.startsWith(collectionID)` on the
raw strings, so the handle of a request living in root collection 11 is
spuriously invalidated when collection 1 is deleted, contradicting the
claim that exactly the subtree's handles flip to invalid. -/
theorem removeRESTCollection_invalidates_outside_subtree :
    pathInSubtree "1" "11/0" = false ∧
    startsWithJS "11/0" "1" = true ∧
    (Provider.removeRESTCollection
        (.ok personalProviderID "personal" "1" "C1") stTwelve).2.issuedHandles
      = [.invalid "REQUEST_INVALIDATED"] := by
  refine ⟨by decide, by decide, ?_⟩
  rfl

/-- C2: moving request `"0/0"` of a three-request source collection to the
empty collection `"1"` rewrites the moved cell to `"1/0"` as claimed, but
the source computes the affected IDs as
`sourceCollectionID + "/" + (range + idx)` with `range = 3 - 1 - 0 = 2`
(i.e. `"0/2"`, `"0/3"`) instead of the requests below the dragged one
(`"0/1"`, `"0/2"`): the issued handle for `"0/1"` keeps its requestID
`"0/1"` instead of being decremented to `"0/0"`, and the handle for `"0/2"`
is decremented onto the same `"0/1"`. -/
theorem moveRESTRequest_skips_request_below :
    (Provider.moveRESTRequest (.ok (moveData 0)) "1" stMove).2.issuedHandles
      = [.okReq { moveData 0 with collectionID := "1", requestID := "1/0" },
         .okReq (moveData 1),
         .okReq { moveData 2 with requestID := "0/1" }] := by
  rfl

/-- C6: `reorderRESTCollection` performs no handle bookkeeping at all: after
reordering collection `"0"` to the end, the registry is exactly what it was,
while the request addressed by the registered index path `"0/0"` has changed
from request `"a0"` to request `"b0"` — the issued valid handle is neither
recomputed nor invalidated and now addresses a different entity. -/
theorem reorderRESTCollection_leaves_stale_handle :
    (Provider.reorderRESTCollection (.ok personalProviderID "personal" "0" "A")
        none stReorder).2.issuedHandles = stReorder.issuedHandles ∧
    (Store.getRequestsByPath
        (Provider.reorderRESTCollection
          (.ok personalProviderID "personal" "0" "A") none
          stReorder).2.restCollectionState "0").get? 0
      ≠ (Store.getRequestsByPath stReorder.restCollectionState "0").get? 0 := by
  constructor
  · rfl
  · decide

/-- C8: `getWorkspaceHandle` rejects every workspace ID other than
`"personal"` with `INVALID_WORKSPACE_ID`, and for `"personal"` returns the
personal workspace handle, a constant cell (never written by any operation)
that always reads ok with providerID `"PERSONAL_WORKSPACE_PROVIDER"` and
workspaceID `"personal"`. -/
theorem getWorkspaceHandle_personal_only :
    (∀ wid : String, wid ≠ "personal" →
      Provider.getWorkspaceHandle wid = .error "INVALID_WORKSPACE_ID") ∧
    Provider.getWorkspaceHandle "personal" = .ok Provider.getPersonalWorkspaceHandle ∧
    Provider.getPersonalWorkspaceHandle =
      .ok personalProviderID "personal" "Personal Workspace" := by
  refine ⟨?_, rfl, rfl⟩
  intro wid h
  simp [Provider.getWorkspaceHandle, h]

/-- Witness for C8 at the concrete workspace ID `"team"`. -/
theorem getWorkspaceHandle_personal_only_witness :
    Provider.getWorkspaceHandle "team" = .error "INVALID_WORKSPACE_ID" ∧
    Provider.getWorkspaceHandle "personal" = .ok Provider.getPersonalWorkspaceHandle :=
  ⟨getWorkspaceHandle_personal_only.1 "team" (by decide),
   getWorkspaceHandle_personal_only.2.1⟩

/-- C7: identities are positional: for any state, a root collection created
through a valid workspace handle gets `collectionID` equal to the decimal
string of the root array length before insertion, and a request created
under a valid collection handle with ID `cid` gets
`requestID = cid ++ "/" ++ i` where `i` is the insertion index returned by
the store's `saveRESTRequestAs`. -/
theorem created_ids_are_positional :
    ∀ (s : ProviderState) (wname cname newName cid : String)
      (req : HoppRESTRequest),
    (Provider.createRESTRootCollection (.ok personalProviderID "personal" wname)
        newName s).1 = .ok (toString s.restCollectionState.length, newName) ∧
    (Provider.createRESTRequest (.ok personalProviderID "personal" cid cname)
        req s).1 = .ok ⟨personalProviderID, "personal", cid,
          cid ++ "/" ++
            toString (Store.saveRESTRequestAs s.restCollectionState cid req).2,
          req⟩ := by
  intro s wname cname newName cid req
  constructor
  · simp [Provider.createRESTRootCollection]
  · simp [Provider.createRESTRequest]

/-- C3: every derived handle read re-checks the owner validity of the handle
it was derived from, and flips to `invalid` with a reason code the moment
that check fails — for the handles issued by `createRESTRootCollection`,
`createRESTChildCollection`, `createRESTRequest`, `getCollectionHandle`,
`getRequestHandle` and `importRESTCollections`; so reading never yields an
ok value whose owning context is invalid. -/
theorem derived_handle_reads_flip_invalid :
    (∀ (wh : WorkspaceHandleSt) (nid nname : String),
      isValidWorkspaceHandle wh personalProviderID "personal" = false →
      Provider.createRootCollHandleRead wh nid nname =
        .invalid "WORKSPACE_INVALIDATED") ∧
    (∀ (ch : CollectionHandleSt) (p w c n : String),
      isValidCollectionHandle ch personalProviderID "personal" = false →
      Provider.createChildCollHandleRead ch p w c n =
        .invalid "COLLECTION_INVALIDATED") ∧
    (∀ (ch : CollectionHandleSt) (cell : IssuedHandleSt),
      isValidCollectionHandle ch personalProviderID "personal" = false →
      Provider.createRequestHandleRead ch cell =
        .invalid "COLLECTION_INVALIDATED") ∧
    (∀ (wh : WorkspaceHandleSt) (p w c n : String),
      isValidWorkspaceHandle wh personalProviderID "personal" = false →
      Provider.getCollectionHandleRead wh p w c n =
        .invalid "WORKSPACE_INVALIDATED") ∧
    (∀ (wh : WorkspaceHandleSt) (cell : IssuedHandleSt),
      isValidWorkspaceHandle wh personalProviderID "personal" = false →
      Provider.getRequestHandleRead wh cell =
        .invalid "WORKSPACE_INVALIDATED") ∧
    (∀ (wh : WorkspaceHandleSt) (nid nname : String),
      isValidWorkspaceHandle wh personalProviderID "personal" = false →
      Provider.importCollsHandleRead wh nid nname =
        .invalid "WORKSPACE_INVALIDATED") := by
  refine ⟨?_, ?_, ?_, ?_, ?_, ?_⟩
  · intro wh nid nname h
    cases wh with
    | ok pid wid n =>
      simp only [isValidWorkspaceHandle] at h
      simp [Provider.createRootCollHandleRead, h]
    | invalid r => rfl
  · intro ch p w c n h
    simp [Provider.createChildCollHandleRead, h]
  · intro ch cell h
    simp [Provider.createRequestHandleRead, h]
  · intro wh p w c n h
    simp [Provider.getCollectionHandleRead, h]
  · intro wh cell h
    simp [Provider.getRequestHandleRead, h]
  · intro wh nid nname h
    cases wh with
    | ok pid wid n =>
      simp only [isValidWorkspaceHandle] at h
      simp [Provider.importCollsHandleRead, h]
    | invalid r => rfl

/-- Witness for C3 at concrete invalidated / foreign-owner parent handles. -/
theorem derived_handle_reads_flip_invalid_witness :
    Provider.createRootCollHandleRead (.invalid "WORKSPACE_INVALIDATED") "0" "c"
      = .invalid "WORKSPACE_INVALIDATED" ∧
    Provider.createChildCollHandleRead (.invalid "COLLECTION_INVALIDATED")
      personalProviderID "personal" "0" "c" = .invalid "COLLECTION_INVALIDATED" ∧
    Provider.createRequestHandleRead
      (.ok "OTHER_PROVIDER" "personal" "0" "c") (.invalid "x")
      = .invalid "COLLECTION_INVALIDATED" ∧
    Provider.getCollectionHandleRead (.ok personalProviderID "team" "t")
      personalProviderID "personal" "0" "c" = .invalid "WORKSPACE_INVALIDATED" ∧
    Provider.getRequestHandleRead (.invalid "x") (.invalid "y")
      = .invalid "WORKSPACE_INVALIDATED" ∧
    Provider.importCollsHandleRead (.ok "OTHER_PROVIDER" "personal" "w") "0" "c"
      = .invalid "WORKSPACE_INVALIDATED" :=
  ⟨derived_handle_reads_flip_invalid.1 _ "0" "c" (by decide),
   derived_handle_reads_flip_invalid.2.1 _ _ _ _ _ (by decide),
   derived_handle_reads_flip_invalid.2.2.1 _ _ (by decide),
   derived_handle_reads_flip_invalid.2.2.2.1 _ _ _ _ _ (by decide),
   derived_handle_reads_flip_invalid.2.2.2.2.1 _ _ (by decide),
   derived_handle_reads_flip_invalid.2.2.2.2.2 _ "0" "c" (by decide)⟩

/-- C5: every public mutation operation validates the supplied handle against
`(this.providerID, "personal")` first; on an invalid handle it returns the
tagged failure with the operation's error code and the provider state (tree
and registry) is unchanged. -/
theorem mutation_ops_reject_invalid_handles :
    (∀ (s : ProviderState) (wh : WorkspaceHandleSt) (n : String),
      isValidWorkspaceHandle wh personalProviderID "personal" = false →
      Provider.createRESTRootCollection wh n s = (.error "INVALID_WORKSPACE_HANDLE", s)) ∧
    (∀ (s : ProviderState) (ch : CollectionHandleSt) (n : String),
      isValidCollectionHandle ch personalProviderID "personal" = false →
      Provider.createRESTChildCollection ch n s = (.error "INVALID_COLLECTION_HANDLE", s)) ∧
    (∀ (s : ProviderState) (ch : CollectionHandleSt) (n : Option String),
      isValidCollectionHandle ch personalProviderID "personal" = false →
      Provider.updateRESTCollection ch n s = (.error "INVALID_COLLECTION_HANDLE", s)) ∧
    (∀ (s : ProviderState) (ch : CollectionHandleSt),
      isValidCollectionHandle ch personalProviderID "personal" = false →
      Provider.removeRESTCollection ch s = (.error "INVALID_COLLECTION_HANDLE", s)) ∧
    (∀ (s : ProviderState) (ch : CollectionHandleSt) (req : HoppRESTRequest),
      isValidCollectionHandle ch personalProviderID "personal" = false →
      Provider.createRESTRequest ch req s = (.error "INVALID_COLLECTION_HANDLE", s)) ∧
    (∀ (s : ProviderState) (rh : RequestHandleSt) (i : Option Nat)
        (u : HoppRESTRequestPatch),
      isValidRequestHandle rh personalProviderID "personal" = false →
      Provider.updateRESTRequest rh i u s = (.error "INVALID_REQUEST_HANDLE", s)) ∧
    (∀ (s : ProviderState) (rh : RequestHandleSt),
      isValidRequestHandle rh personalProviderID "personal" = false →
      Provider.removeRESTRequest rh s = (.error "INVALID_REQUEST_HANDLE", s)) ∧
    (∀ (s : ProviderState) (ch : CollectionHandleSt) (dest : Option String),
      isValidCollectionHandle ch personalProviderID "personal" = false →
      Provider.moveRESTCollection ch dest s = (.error "INVALID_COLLECTION_HANDLE", s)) ∧
    (∀ (s : ProviderState) (rh : RequestHandleSt) (dest : String),
      isValidRequestHandle rh personalProviderID "personal" = false →
      Provider.moveRESTRequest rh dest s = (.error "INVALID_REQUEST_HANDLE", s)) ∧
    (∀ (s : ProviderState) (ch : CollectionHandleSt) (dest : Option String),
      isValidCollectionHandle ch personalProviderID "personal" = false →
      Provider.reorderRESTCollection ch dest s = (.error "INVALID_COLLECTION_HANDLE", s)) ∧
    (∀ (s : ProviderState) (rh : RequestHandleSt) (destC : String)
        (destR : Option String),
      isValidRequestHandle rh personalProviderID "personal" = false →
      Provider.reorderRESTRequest rh destC destR s = (.error "INVALID_REQUEST_HANDLE", s)) := by
  refine ⟨?_, ?_, ?_, ?_, ?_, ?_, ?_, ?_, ?_, ?_, ?_⟩
  · intro s wh n h
    cases wh with
    | ok pid wid wn =>
      simp only [isValidWorkspaceHandle] at h
      simp [Provider.createRESTRootCollection, h]
    | invalid r => rfl
  · intro s ch n h
    cases ch with
    | ok pid wid cid cn =>
      simp only [isValidCollectionHandle] at h
      simp [Provider.createRESTChildCollection, h]
    | invalid r => rfl
  · intro s ch n h
    cases ch with
    | ok pid wid cid cn =>
      simp only [isValidCollectionHandle] at h
      simp [Provider.updateRESTCollection, h]
    | invalid r => rfl
  · intro s ch h
    cases ch with
    | ok pid wid cid cn =>
      simp only [isValidCollectionHandle] at h
      simp [Provider.removeRESTCollection, h]
    | invalid r => rfl
  · intro s ch req h
    cases ch with
    | ok pid wid cid cn =>
      simp only [isValidCollectionHandle] at h
      simp [Provider.createRESTRequest, h]
    | invalid r => rfl
  · intro s rh i u h
    cases rh with
    | ok d =>
      simp only [isValidRequestHandle] at h
      simp [Provider.updateRESTRequest, h]
    | invalid r => rfl
  · intro s rh h
    cases rh with
    | ok d =>
      simp only [isValidRequestHandle] at h
      simp [Provider.removeRESTRequest, h]
    | invalid r => rfl
  · intro s ch dest h
    cases ch with
    | ok pid wid cid cn =>
      simp only [isValidCollectionHandle] at h
      simp [Provider.moveRESTCollection, h]
    | invalid r => rfl
  · intro s rh dest h
    cases rh with
    | ok d =>
      simp only [isValidRequestHandle] at h
      simp [Provider.moveRESTRequest, h]
    | invalid r => rfl
  · intro s ch dest h
    cases ch with
    | ok pid wid cid cn =>
      simp only [isValidCollectionHandle] at h
      simp [Provider.reorderRESTCollection, h]
    | invalid r => rfl
  · intro s rh destC destR h
    cases rh with
    | ok d =>
      simp only [isValidRequestHandle] at h
      simp [Provider.reorderRESTRequest, h]
    | invalid r => rfl

/-- Witness for C5: each operation applied to a concretely invalidated
handle (or one owned by a foreign provider) over the twelve-collection
fixture state. -/
theorem mutation_ops_reject_invalid_handles_witness :
    Provider.createRESTRootCollection (.invalid "g") "n" stTwelve
      = (.error "INVALID_WORKSPACE_HANDLE", stTwelve) ∧
    Provider.createRESTChildCollection (.invalid "g") "n" stTwelve
      = (.error "INVALID_COLLECTION_HANDLE", stTwelve) ∧
    Provider.updateRESTCollection (.ok "OTHER_PROVIDER" "personal" "0" "c")
        (some "n") stTwelve = (.error "INVALID_COLLECTION_HANDLE", stTwelve) ∧
    Provider.removeRESTCollection (.ok personalProviderID "team" "0" "c") stTwelve
      = (.error "INVALID_COLLECTION_HANDLE", stTwelve) ∧
    Provider.createRESTRequest (.invalid "g") (sampleReq "q") stTwelve
      = (.error "INVALID_COLLECTION_HANDLE", stTwelve) ∧
    Provider.updateRESTRequest (.invalid "g") none ⟨none, none, none⟩ stTwelve
      = (.error "INVALID_REQUEST_HANDLE", stTwelve) ∧
    Provider.removeRESTRequest (.invalid "g") stTwelve
      = (.error "INVALID_REQUEST_HANDLE", stTwelve) ∧
    Provider.moveRESTCollection (.invalid "g") (some "1") stTwelve
      = (.error "INVALID_COLLECTION_HANDLE", stTwelve) ∧
    Provider.moveRESTRequest (.invalid "g") "1" stTwelve
      = (.error "INVALID_REQUEST_HANDLE", stTwelve) ∧
    Provider.reorderRESTCollection (.invalid "g") none stTwelve
      = (.error "INVALID_COLLECTION_HANDLE", stTwelve) ∧
    Provider.reorderRESTRequest (.invalid "g") "1" none stTwelve
      = (.error "INVALID_REQUEST_HANDLE", stTwelve) :=
  ⟨mutation_ops_reject_invalid_handles.1 stTwelve _ "n" (by decide),
   mutation_ops_reject_invalid_handles.2.1 stTwelve _ "n" (by decide),
   mutation_ops_reject_invalid_handles.2.2.1 stTwelve _ (some "n") (by decide),
   mutation_ops_reject_invalid_handles.2.2.2.1 stTwelve _ (by decide),
   mutation_ops_reject_invalid_handles.2.2.2.2.1 stTwelve _ _ (by decide),
   mutation_ops_reject_invalid_handles.2.2.2.2.2.1 stTwelve _ none _ (by decide),
   mutation_ops_reject_invalid_handles.2.2.2.2.2.2.1 stTwelve _ (by decide),
   mutation_ops_reject_invalid_handles.2.2.2.2.2.2.2.1 stTwelve _ _ (by decide),
   mutation_ops_reject_invalid_handles.2.2.2.2.2.2.2.2.1 stTwelve _ "1" (by decide),
   mutation_ops_reject_invalid_handles.2.2.2.2.2.2.2.2.2.1 stTwelve _ none (by decide),
   mutation_ops_reject_invalid_handles.2.2.2.2.2.2.2.2.2.2 stTwelve _ "1" none (by decide)⟩

/-- Reading position `i` of `modifyIdx f i l` applies `f` under the map. -/
theorem modifyIdx_getElem_self (f : α → α) (i : Nat) (l : List α) :
    (modifyIdx f i l)[i]? = l[i]?.map f := by
  induction l generalizing i with
  | nil => simp [modifyIdx]
  | cons a as ih =>
    cases i with
    | zero => simp [modifyIdx]
    | succ n => simpa [modifyIdx] using ih n

/-- Reading any other position of `modifyIdx f i l` is unchanged. -/
theorem modifyIdx_getElem_other (f : α → α) (i j : Nat) (l : List α)
    (h : i ≠ j) : (modifyIdx f i l)[j]? = l[j]? := by
  induction l generalizing i j with
  | nil => simp [modifyIdx]
  | cons a as ih =>
    cases i with
    | zero =>
      cases j with
      | zero => exact absurd rfl h
      | succ m => simp [modifyIdx]
    | succ n =>
      cases j with
      | zero => simp [modifyIdx]
      | succ m =>
        simpa [modifyIdx] using ih n m (fun hnm => h (by simpa using hnm))

/-- C4: after `removeRESTRequest` succeeds on a valid request handle with
requestID `rid`, every registry cell holding a valid request handle with
requestID `rid` is rewritten at its position to
`invalid`/`"REQUEST_INVALIDATED"`, while cells with a different requestID,
collection cells and already-invalid cells keep their state. -/
theorem removeRESTRequest_invalidates_exactly_matching :
    ∀ (s : ProviderState) (cid rid : String) (req : HoppRESTRequest) (j : Nat),
    (Provider.removeRESTRequest
        (.ok ⟨personalProviderID, "personal", cid, rid, req⟩) s).1 = .ok () ∧
    (∀ dd : WorkspaceRequestData,
      s.issuedHandles[j]? = some (.okReq dd) →
      (Provider.removeRESTRequest
          (.ok ⟨personalProviderID, "personal", cid, rid, req⟩) s).2.issuedHandles[j]?
        = some (if dd.requestID = rid then .invalid "REQUEST_INVALIDATED"
                else .okReq dd)) ∧
    (∀ p w c n : String,
      s.issuedHandles[j]? = some (.okColl p w c n) →
      (Provider.removeRESTRequest
          (.ok ⟨personalProviderID, "personal", cid, rid, req⟩) s).2.issuedHandles[j]?
        = some (.okColl p w c n)) ∧
    (∀ r : String,
      s.issuedHandles[j]? = some (.invalid r) →
      (Provider.removeRESTRequest
          (.ok ⟨personalProviderID, "personal", cid, rid, req⟩) s).2.issuedHandles[j]?
        = some (.invalid r)) := by
  intro s cid rid req j
  refine ⟨by simp [Provider.removeRESTRequest], ?_, ?_, ?_⟩
  · intro dd hj
    simp only [Provider.removeRESTRequest, beq_self_eq_true, Bool.and_self,
      if_true, List.getElem?_map, hj, Option.map_some']
    by_cases hdd : dd.requestID = rid
    · simp [hdd]
    · simp [beq_iff_eq, hdd]
  · intro p w c n hj
    simp [Provider.removeRESTRequest, List.getElem?_map, hj]
  · intro r hj
    simp [Provider.removeRESTRequest, List.getElem?_map, hj]

/-- Witness for C4: a registry with a matching request cell, a request cell
for another request, a collection cell and an invalid cell; removing request
`"0/0"` invalidates exactly the first. -/
theorem removeRESTRequest_invalidates_exactly_matching_witness :
    (Provider.removeRESTRequest
        (.ok ⟨personalProviderID, "personal", "0", "0/0", sampleReq "a"⟩)
        ⟨treeReorder, [.okReq reorderData,
                       .okReq ⟨personalProviderID, "personal", "1", "1/0", sampleReq "b0"⟩,
                       .okColl personalProviderID "personal" "1" "B",
                       .invalid "REQUEST_INVALIDATED"]⟩).2.issuedHandles[0]?
      = some (.invalid "REQUEST_INVALIDATED") ∧
    (Provider.removeRESTRequest
        (.ok ⟨personalProviderID, "personal", "0", "0/0", sampleReq "a"⟩)
        ⟨treeReorder, [.okReq reorderData,
                       .okReq ⟨personalProviderID, "personal", "1", "1/0", sampleReq "b0"⟩,
                       .okColl personalProviderID "personal" "1" "B",
                       .invalid "REQUEST_INVALIDATED"]⟩).2.issuedHandles[1]?
      = some (.okReq ⟨personalProviderID, "personal", "1", "1/0", sampleReq "b0"⟩) ∧
    (Provider.removeRESTRequest
        (.ok ⟨personalProviderID, "personal", "0", "0/0", sampleReq "a"⟩)
        ⟨treeReorder, [.okReq reorderData,
                       .okReq ⟨personalProviderID, "personal", "1", "1/0", sampleReq "b0"⟩,
                       .okColl personalProviderID "personal" "1" "B",
                       .invalid "REQUEST_INVALIDATED"]⟩).2.issuedHandles[2]?
      = some (.okColl personalProviderID "personal" "1" "B") := by
  refine ⟨?_, ?_, ?_⟩
  · have h := (removeRESTRequest_invalidates_exactly_matching
      ⟨treeReorder, [.okReq reorderData,
                     .okReq ⟨personalProviderID, "personal", "1", "1/0", sampleReq "b0"⟩,
                     .okColl personalProviderID "personal" "1" "B",
                     .invalid "REQUEST_INVALIDATED"]⟩
      "0" "0/0" (sampleReq "a") 0).2.1 reorderData rfl
    simpa [reorderData] using h
  · have h := (removeRESTRequest_invalidates_exactly_matching
      ⟨treeReorder, [.okReq reorderData,
                     .okReq ⟨personalProviderID, "personal", "1", "1/0", sampleReq "b0"⟩,
                     .okColl personalProviderID "personal" "1" "B",
                     .invalid "REQUEST_INVALIDATED"]⟩
      "0" "0/0" (sampleReq "a") 1).2.1
      ⟨personalProviderID, "personal", "1", "1/0", sampleReq "b0"⟩ rfl
    simpa using h
  · exact (removeRESTRequest_invalidates_exactly_matching
      ⟨treeReorder, [.okReq reorderData,
                     .okReq ⟨personalProviderID, "personal", "1", "1/0", sampleReq "b0"⟩,
                     .okColl personalProviderID "personal" "1" "B",
                     .invalid "REQUEST_INVALIDATED"]⟩
      "0" "0/0" (sampleReq "a") 2).2.2.1 personalProviderID "personal" "1" "B" rfl

/-- The dedup test of `createRESTRequest`/`getRequestHandle` holds exactly
for valid request cells carrying the given composite key. -/
theorem reqKeyMatches_iff (p w c r : String) (h : IssuedHandleSt) :
    Provider.reqKeyMatches p w c r h = true ↔ h.reqKey? = some (p, w, c, r) := by
  cases h with
  | okReq d =>
    simp [Provider.reqKeyMatches, IssuedHandleSt.reqKey?, and_assoc]
  | okColl p' w' c' n => simp [Provider.reqKeyMatches, IssuedHandleSt.reqKey?]
  | invalid r' => simp [Provider.reqKeyMatches, IssuedHandleSt.reqKey?]

/-- When the dedup scan finds no valid cell with the key, the key is not
among the registry's valid request keys. -/
theorem not_mem_validReqKeys_of_any_false (p w c r : String)
    (hs : List IssuedHandleSt)
    (h : hs.any (Provider.reqKeyMatches p w c r) = false) :
    (p, w, c, r) ∉ validReqKeys hs := by
  intro hmem
  rw [validReqKeys, List.mem_filterMap] at hmem
  obtain ⟨cell, hcell, hkey⟩ := hmem
  rw [List.any_eq_false] at h
  exact h cell hcell ((reqKeyMatches_iff p w c r cell).2 hkey)

/-- Appending one fresh-keyed valid request cell preserves key nodup. -/
theorem validReqKeys_push_nodup (hs : List IssuedHandleSt)
    (d : WorkspaceRequestData) (hn : (validReqKeys hs).Nodup)
    (hf : (d.providerID, d.workspaceID, d.collectionID, d.requestID) ∉
      validReqKeys hs) :
    (validReqKeys (hs ++ [.okReq d])).Nodup := by
  rw [validReqKeys, List.filterMap_append]
  rw [List.nodup_append]
  refine ⟨hn, by simp [IssuedHandleSt.reqKey?], ?_⟩
  intro k hk hk'
  simp only [List.filterMap_cons, IssuedHandleSt.reqKey?, List.filterMap_nil,
    List.mem_singleton] at hk'
  subst hk'
  exact hf hk

/-- C9: `createRESTRequest` and `getRequestHandle` preserve the invariant
that there are never two valid request cells with the same composite
(providerID, workspaceID, collectionID, requestID) key: a writable cell is
pushed only when the dedup scan finds no currently valid cell with an equal
key. -/
theorem issue_ops_preserve_key_nodup :
    ∀ (s : ProviderState) (ch : CollectionHandleSt) (wh : WorkspaceHandleSt)
      (req : HoppRESTRequest) (rid : String),
    (validReqKeys s.issuedHandles).Nodup →
    (validReqKeys (Provider.createRESTRequest ch req s).2.issuedHandles).Nodup ∧
    (validReqKeys (Provider.getRequestHandle wh rid s).2.issuedHandles).Nodup := by
  intro s ch wh req rid hn
  constructor
  · cases ch with
    | invalid r => exact hn
    | ok pid wid cid cn =>
      by_cases hg : (pid == personalProviderID && wid == "personal") = true
      · simp only [Provider.createRESTRequest, hg, if_true]
        by_cases hany : s.issuedHandles.any
            (Provider.reqKeyMatches pid wid cid
              (cid ++ "/" ++ toString
                (Store.saveRESTRequestAs s.restCollectionState cid req).2)) = true
        · simpa [hany] using hn
        · rw [Bool.not_eq_true] at hany
          simp only [hany, Bool.false_eq_true, if_false]
          exact validReqKeys_push_nodup _ _ hn
            (not_mem_validReqKeys_of_any_false _ _ _ _ _ hany)
      · rw [Bool.not_eq_true] at hg
        simpa [Provider.createRESTRequest, hg] using hn
  · cases wh with
    | invalid r => exact hn
    | ok pid wid wn =>
      by_cases hg : (pid == personalProviderID && wid == "personal") = true
      · by_cases hempty : (rid == "") = true
        · simpa [Provider.getRequestHandle, hg, hempty] using hn
        · rw [Bool.not_eq_true] at hempty
          by_cases hlast : (lastComponent rid == "") = true
          · simpa [Provider.getRequestHandle, hg, hempty, hlast] using hn
          · rw [Bool.not_eq_true] at hlast
            simp only [Provider.getRequestHandle, hg, if_true, hempty,
              Bool.false_eq_true, if_false, hlast]
            cases hreq : (match
                Store.navigateToFolderWithIndexPath s.restCollectionState
                  (parsePath (parentPath rid)),
                parseIntJS (lastComponent rid) with
              | some c, some i => c.requests.get? i
              | _, _ => none : Option HoppRESTRequest) with
            | none => exact hn
            | some r0 =>
              by_cases hany : s.issuedHandles.any
                  (Provider.reqKeyMatches pid wid (parentPath rid) rid) = true
              · simpa [hany] using hn
              · rw [Bool.not_eq_true] at hany
                simp only [hany, Bool.false_eq_true, if_false]
                exact validReqKeys_push_nodup _ _ hn
                  (not_mem_validReqKeys_of_any_false _ _ _ _ _ hany)
      · rw [Bool.not_eq_true] at hg
        simpa [Provider.getRequestHandle, hg] using hn

/-- Witness for C9: issuing the same request twice through
`getRequestHandle` over the reorder fixture keeps the keys duplicate-free
(the second issue is deduplicated). -/
theorem issue_ops_preserve_key_nodup_witness :
    (validReqKeys (Provider.createRESTRequest
        (.ok personalProviderID "personal" "0" "A") (sampleReq "q")
        stReorder).2.issuedHandles).Nodup ∧
    (validReqKeys (Provider.getRequestHandle
        (.ok personalProviderID "personal" "Personal Workspace") "0/0"
        stReorder).2.issuedHandles).Nodup :=
  issue_ops_preserve_key_nodup stReorder
    (.ok personalProviderID "personal" "0" "A")
    (.ok personalProviderID "personal" "Personal Workspace")
    (sampleReq "q") "0/0" (by decide)

/-- C10 counterexample: updating request `"0/0"` through its own issued
handle with a patch that only changes `method` leaves, per the claim, every
field but `name` of the issued cell unchanged — but lodash `merge` mutates
the supplied handle's `request` object, which is the very object stored in
the issued cell, so the cell's `method` flips to `"POST"`: the cell after
the call differs from the cell before although the merged name is
unchanged. -/
theorem updateRESTRequest_rewrites_more_than_name :
    (Provider.updateRESTRequest (.ok updData) (some 0)
        ⟨none, none, some "POST"⟩ stUpd).2.issuedHandles
      = [.okReq { updData with request := { updReq with method := "POST" } }] ∧
    (mergeReq updReq ⟨none, none, some "POST"⟩).name = updReq.name ∧
    ({ updReq with method := "POST" } : HoppRESTRequest) ≠ updReq := by
  refine ⟨rfl, rfl, by decide⟩

/-- C10 (amended): when `updateRESTRequest` succeeds through a handle that
reads registry cell `i`, cell `i`'s stored request becomes the whole merged
request (the lodash-merge mutation of the shared object), every *other*
valid request cell with the same requestID has exactly its `name` rewritten
to the merged name, and all remaining cells (valid request cells with a
different requestID, collection cells, invalid cells) keep their state. -/
theorem updateRESTRequest_amended_effect :
    ∀ (s : ProviderState) (i : Nat) (d : WorkspaceRequestData)
      (u : HoppRESTRequestPatch),
    d.providerID = personalProviderID → d.workspaceID = "personal" →
    s.issuedHandles[i]? = some (.okReq d) →
    (Provider.updateRESTRequest (.ok d) (some i) u s).1 = .ok () ∧
    (Provider.updateRESTRequest (.ok d) (some i) u s).2.issuedHandles[i]?
      = some (.okReq { d with request := mergeReq d.request u }) ∧
    (∀ (j : Nat) (dd : WorkspaceRequestData), j ≠ i →
      s.issuedHandles[j]? = some (.okReq dd) →
      (Provider.updateRESTRequest (.ok d) (some i) u s).2.issuedHandles[j]?
        = some (if dd.requestID = d.requestID
            then .okReq { dd with request :=
              { dd.request with name := (mergeReq d.request u).name } }
            else .okReq dd)) ∧
    (∀ (j : Nat) (p w c n : String),
      s.issuedHandles[j]? = some (.okColl p w c n) →
      (Provider.updateRESTRequest (.ok d) (some i) u s).2.issuedHandles[j]?
        = some (.okColl p w c n)) ∧
    (∀ (j : Nat) (r : String),
      s.issuedHandles[j]? = some (.invalid r) →
      (Provider.updateRESTRequest (.ok d) (some i) u s).2.issuedHandles[j]?
        = some (.invalid r)) := by
  intro s i d u hp hw hi
  refine ⟨by simp [Provider.updateRESTRequest, hp, hw], ?_, ?_, ?_, ?_⟩
  · simp only [Provider.updateRESTRequest, hp, hw, beq_self_eq_true,
      Bool.and_self, if_true, List.getElem?_map, modifyIdx_getElem_self, hi,
      Option.map_some']
  · intro j dd hj hjs
    simp only [Provider.updateRESTRequest, hp, hw, beq_self_eq_true,
      Bool.and_self, if_true, List.getElem?_map,
      modifyIdx_getElem_other _ i j _ (fun hij => hj hij.symm), hjs,
      Option.map_some']
    by_cases hdd : dd.requestID = d.requestID
    · simp [hdd]
    · simp [beq_iff_eq, hdd]
  · intro j p w c n hjs
    by_cases hij : j = i
    · subst hij
      rw [hjs] at hi
      exact absurd hi (by simp)
    · simp [Provider.updateRESTRequest, hp, hw, List.getElem?_map,
        modifyIdx_getElem_other _ i j _ (fun h => hij h.symm), hjs]
  · intro j r hjs
    by_cases hij : j = i
    · subst hij
      rw [hjs] at hi
      exact absurd hi (by simp)
    · simp [Provider.updateRESTRequest, hp, hw, List.getElem?_map,
        modifyIdx_getElem_other _ i j _ (fun h => hij h.symm), hjs]

/-- Witness for the amended C10 over a two-cell registry: the aliased cell
receives the whole merged request (method flips to `"POST"`), the other
request cell (different requestID) is untouched. -/
theorem updateRESTRequest_amended_effect_witness :
    (Provider.updateRESTRequest (.ok updData) (some 0)
        ⟨none, none, some "POST"⟩
        ⟨[.mk "A" [] [updReq]],
         [.okReq updData,
          .okReq ⟨personalProviderID, "personal", "1", "1/0", sampleReq "b"⟩]⟩).2.issuedHandles[0]?
      = some (.okReq { updData with
          request := mergeReq updReq ⟨none, none, some "POST"⟩ }) ∧
    (Provider.updateRESTRequest (.ok updData) (some 0)
        ⟨none, none, some "POST"⟩
        ⟨[.mk "A" [] [updReq]],
         [.okReq updData,
          .okReq ⟨personalProviderID, "personal", "1", "1/0", sampleReq "b"⟩]⟩).2.issuedHandles[1]?
      = some (.okReq ⟨personalProviderID, "personal", "1", "1/0", sampleReq "b"⟩) := by
  have h := updateRESTRequest_amended_effect
    ⟨[.mk "A" [] [updReq]],
     [.okReq updData,
      .okReq ⟨personalProviderID, "personal", "1", "1/0", sampleReq "b"⟩]⟩
    0 updData ⟨none, none, some "POST"⟩ rfl rfl rfl
  refine ⟨h.2.1, ?_⟩
  have h2 := h.2.2.1 1
    ⟨personalProviderID, "personal", "1", "1/0", sampleReq "b"⟩
    (by decide) rfl
  simpa [updData] using h2

end Hopp
